import Mathlib

/-!
Verification of the staking/progression engine of the `betfair-favs-bot`
repository (`src/strategy.py`), as a shallow embedding over `ℚ`.

Python floats are modelled as rational numbers; float arithmetic properties
claimed "within floating tolerance" are proved exactly over `ℚ`.
Python exceptions (e.g. the `IndexError` that `_record_auto_result` raises
when fewer than two favourites are stored and the race is won) are modelled
with `Option`: `none` is a raised exception.
-/

namespace BetfairFavsBot

/-- Result record of `BotRunner._dutch_calc`
(the dict `{"stake1": _, "stake2": _, "profit_each": _}`). -/
structure DutchResult where
  stake1 : ℚ
  stake2 : ℚ
  profit_each : ℚ
  deriving Repr, DecidableEq

/-- `BotRunner._dutch_calc` (src/strategy.py lines 107-116), verbatim:
`inv_sum = 1/o1 + 1/o2`; if `inv_sum <= 0` return zero stakes and
`profit_each = -total_stake`; otherwise `stake1 = total_stake*(1/o1)/inv_sum`,
`stake2 = total_stake - stake1`,
`profit_each = total_stake/inv_sum - total_stake`. -/
def dutch_calc (total_stake o1 o2 : ℚ) : DutchResult :=
  let inv_sum := 1 / o1 + 1 / o2
  if inv_sum ≤ 0 then
    { stake1 := 0, stake2 := 0, profit_each := -total_stake }
  else
    let stake1 := total_stake * (1 / o1) / inv_sum
    { stake1 := stake1
      stake2 := total_stake - stake1
      profit_each := total_stake / inv_sum - total_stake }

/-- One entry of `state.history`, as appended by `BotRunner._record_auto_result`
(src/strategy.py lines 275-285). -/
structure HistEntry where
  ts_utc : String
  race_name : String
  market_id : String
  favs : String
  total_stake : ℚ
  pl : ℚ
  won : Bool
  recovery_target_after : ℚ
  bank_after : ℚ
  deriving Repr, DecidableEq

/-- A favourite as returned by `get_top_two_favourites` and stored in
`state.last_favourites`: a dict with `name`, `back` price and optional
`selection_id`. -/
structure Fav where
  name : String
  back : ℚ
  selection_id : Option Int
  deriving Repr, DecidableEq

/-- `StrategyState` (src/strategy.py lines 30-61). -/
structure StrategyState where
  starting_bank : ℚ := 100
  bank : ℚ := 100
  stake_percent : ℚ := 5
  selected_markets : List String := []
  current_index : Nat := 0
  current_market_id : Option String := none
  seconds_before_off : Int := 60
  min_odds : ℚ := 101/100
  max_odds : ℚ := 1000
  running : Bool := false
  history : List HistEntry := []
  last_total_stake : ℚ := 0
  last_favourites : Option (List Fav) := none
  last_bet_time_utc : Option String := none
  recovery_target : ℚ := 0
  stop_after_win : Bool := true
  max_recovery_stake_percent : ℚ := 30
  deriving Repr, DecidableEq

/-- `BotRunner._advance_market` (src/strategy.py lines 118-124). -/
def advance_market (s : StrategyState) : StrategyState :=
  { s with current_index := s.current_index + 1
           current_market_id := none
           last_favourites := none
           last_total_stake := 0
           last_bet_time_utc := none }

/-- `BotRunner._compute_total_stake_for_recovery` (src/strategy.py lines
126-157): zero stake on non-positive bank; base stake `bank*stake_percent/100`;
recovery component `desired_profit/denom` with
`denom = 1/inv_sum - 1` when `inv_sum > 0`; take the max, cap by
`bank*max_recovery_stake_percent/100` when that cap is positive, and never
exceed the bank. -/
def compute_total_stake_for_recovery (s : StrategyState) (o1 o2 : ℚ) : ℚ :=
  let bank := s.bank
  if bank ≤ 0 then 0
  else
    let base := bank * (s.stake_percent / 100)
    let inv_sum := 1 / o1 + 1 / o2
    let denom := if 0 < inv_sum then 1 / inv_sum - 1 else 0
    let desired_profit := max 0 s.recovery_target
    let required := if 0 < desired_profit ∧ 0 < denom then desired_profit / denom else 0
    let total := max base required
    let cap := bank * (s.max_recovery_stake_percent / 100)
    let total' := if 0 < cap then min total cap else total
    min total' bank

/-- The intermediate `total = max(base, required)` of
`_compute_total_stake_for_recovery` before the safety cap and the bank cap
are applied (src/strategy.py line 147): the uncapped stake. -/
def uncapped_total_for_recovery (s : StrategyState) (o1 o2 : ℚ) : ℚ :=
  let bank := s.bank
  if bank ≤ 0 then 0
  else
    let base := bank * (s.stake_percent / 100)
    let inv_sum := 1 / o1 + 1 / o2
    let denom := if 0 < inv_sum then 1 / inv_sum - 1 else 0
    let desired_profit := max 0 s.recovery_target
    let required := if 0 < desired_profit ∧ 0 < denom then desired_profit / denom else 0
    max base required

/-- The `favs` display string of a history entry (src/strategy.py line 279):
`"name1 / name2"` when at least two favourites are stored, else `""`. -/
def favsString (favs : List Fav) : String :=
  match favs with
  | f1 :: f2 :: _ => f1.name ++ " / " ++ f2.name
  | _ => ""

/-- `BotRunner._record_auto_result` (src/strategy.py lines 249-302).
`ts` stands for `dt.datetime.utcnow()` formatted. On a win the profit is
`_dutch_calc(total_stake, favs[0].back, favs[1].back).profit_each`; with
fewer than two stored favourites the Python code raises `IndexError`,
modelled by `none`. The bank is updated by the P/L, the recovery target is
reset (win) or increased by the stake (loss), one history entry is appended,
and the bot stops (win with `stop_after_win`) or advances. -/
def record_auto_result (ts : String) (s : StrategyState)
    (market_name market_id : String) (won : Bool) : Option StrategyState :=
  let total_stake := s.last_total_stake
  let favs := s.last_favourites.getD []
  let pl? : Option ℚ :=
    if won then
      match favs with
      | f1 :: f2 :: _ => some (dutch_calc total_stake f1.back f2.back).profit_each
      | _ => none
    else some (-total_stake)
  match pl? with
  | none => none
  | some pl =>
    let s1 := { s with bank := s.bank + pl }
    let s2 :=
      if won then { s1 with recovery_target := 0 }
      else { s1 with recovery_target := s1.recovery_target + total_stake }
    let entry : HistEntry :=
      { ts_utc := ts
        race_name := market_name
        market_id := market_id
        favs := favsString favs
        total_stake := total_stake
        pl := pl
        won := won
        recovery_target_after := s2.recovery_target
        bank_after := s2.bank }
    let s3 := { s2 with history := s2.history ++ [entry] }
    if won ∧ s3.stop_after_win then
      some (advance_market { s3 with running := false })
    else
      some (advance_market s3)

/-- The settlement path `BotRunner._wait_for_settlement_and_record`
(src/strategy.py lines 174-247), reduced to its state effect once an outcome
is known: every call of `_record_auto_result` in it (dummy path line 198-201,
live path lines 206, 220, 236) is preceded by the guard
`if not self.state.running or self.state.current_market_id != market_id:
return`, which leaves the state untouched. -/
def settle_and_record (ts : String) (s : StrategyState)
    (market_name market_id : String) (won : Bool) : Option StrategyState :=
  if s.running = false ∨ s.current_market_id ≠ some market_id then some s
  else record_auto_result ts s market_name market_id won

/-- One race event as driven by `BotRunner._run_loop`: the timestamp,
market name and id, the two favourites in the odds range, and the settled
outcome. -/
structure RaceEvent where
  ts : String
  market_name : String
  market_id : String
  f1 : Fav
  f2 : Fav
  won : Bool
  deriving Repr, DecidableEq

/-- One iteration of `BotRunner._run_loop` (src/strategy.py lines 362-397)
from the point where the two in-range favourites are known, followed by the
settlement recording: compute the total stake; if it is non-positive, stop
(`running = False`, line 372-375); otherwise store the bet preview
(lines 382-385) and record the settled result. -/
def run_loop_step (e : RaceEvent) (s : StrategyState) : Option StrategyState :=
  let total := compute_total_stake_for_recovery s e.f1.back e.f2.back
  if total ≤ 0 then some { s with running := false }
  else
    let s1 := { s with last_total_stake := total
                       last_favourites := some [e.f1, e.f2]
                       last_bet_time_utc := some e.ts
                       current_market_id := some e.market_id }
    record_auto_result e.ts s1 e.market_name e.market_id e.won

/-- A sequence of run-loop iterations. -/
def run_races : List RaceEvent → StrategyState → Option StrategyState
  | [], s => some s
  | e :: es, s =>
    match run_loop_step e s with
    | none => none
    | some s' => run_races es s'

/-! ## Basic unfolding lemmas -/

/-- `dutch_calc` written as a single conditional. -/
theorem dutch_calc_def (total_stake o1 o2 : ℚ) :
    dutch_calc total_stake o1 o2 =
      if 1 / o1 + 1 / o2 ≤ 0 then
        { stake1 := 0, stake2 := 0, profit_each := -total_stake }
      else
        { stake1 := total_stake * (1 / o1) / (1 / o1 + 1 / o2)
          stake2 := total_stake - total_stake * (1 / o1) / (1 / o1 + 1 / o2)
          profit_each := total_stake / (1 / o1 + 1 / o2) - total_stake } := rfl

/-- With at least one positive price the `inv_sum ≤ 0` branch of `dutch_calc`
is not taken. -/
theorem dutch_calc_pos (total_stake o1 o2 : ℚ) (h : 0 < 1 / o1 + 1 / o2) :
    dutch_calc total_stake o1 o2 =
      { stake1 := total_stake * (1 / o1) / (1 / o1 + 1 / o2)
        stake2 := total_stake - total_stake * (1 / o1) / (1 / o1 + 1 / o2)
        profit_each := total_stake / (1 / o1 + 1 / o2) - total_stake } := by
  rw [dutch_calc_def, if_neg (not_le.mpr h)]

/-- `stake2` in the positive branch equals the stake proportional to the
implied probability `1/o2`. -/
theorem dutch_stake2_eq (total_stake o1 o2 : ℚ) (h1 : 0 < o1) (h2 : 0 < o2) :
    total_stake - total_stake * (1 / o1) / (1 / o1 + 1 / o2)
      = total_stake * (1 / o2) / (1 / o1 + 1 / o2) := by
  have hs : (0:ℚ) < 1 / o1 + 1 / o2 := by positivity
  field_simp
  ring

/-- C1: Equal-profit dutching. For prices `o1, o2 > 1` and `total_stake > 0`
the stakes returned by `_dutch_calc` sum to `total_stake` (so losing both
selections loses exactly `stake1 + stake2`), and the net profit is the same
whichever favourite wins: `stake1*(o1-1) - stake2 = stake2*(o2-1) - stake1 =
profit_each`, exactly over `ℚ`. -/
theorem dutch_calc_equal_profit (o1 o2 total_stake : ℚ)
    (h1 : 1 < o1) (h2 : 1 < o2) (hT : 0 < total_stake) :
    (dutch_calc total_stake o1 o2).stake1 + (dutch_calc total_stake o1 o2).stake2
        = total_stake ∧
    (dutch_calc total_stake o1 o2).stake1 * (o1 - 1)
        - (dutch_calc total_stake o1 o2).stake2
        = (dutch_calc total_stake o1 o2).profit_each ∧
    (dutch_calc total_stake o1 o2).stake2 * (o2 - 1)
        - (dutch_calc total_stake o1 o2).stake1
        = (dutch_calc total_stake o1 o2).profit_each := by
  have h1' : (0:ℚ) < o1 := by linarith
  have h2' : (0:ℚ) < o2 := by linarith
  have hs : (0:ℚ) < 1 / o1 + 1 / o2 := by positivity
  rw [dutch_calc_pos total_stake o1 o2 hs]
  refine ⟨by ring, ?_, ?_⟩ <;>
  · simp only
    field_simp
    ring

/-- Witness for C1 at `total_stake = 20`, `o1 = 2`, `o2 = 4`. -/
theorem dutch_calc_equal_profit_witness :
    (1:ℚ) < 2 ∧ (1:ℚ) < 4 ∧ (0:ℚ) < 20 ∧
    ((dutch_calc 20 2 4).stake1 + (dutch_calc 20 2 4).stake2 = 20 ∧
     (dutch_calc 20 2 4).stake1 * (2 - 1) - (dutch_calc 20 2 4).stake2
        = (dutch_calc 20 2 4).profit_each ∧
     (dutch_calc 20 2 4).stake2 * (4 - 1) - (dutch_calc 20 2 4).stake1
        = (dutch_calc 20 2 4).profit_each) :=
  ⟨by norm_num, by norm_num, by norm_num,
   dutch_calc_equal_profit 2 4 20 (by norm_num) (by norm_num) (by norm_num)⟩

/-- C2 counterexample: at `o1 = o2 = 3/2` the overround is `4/3 ≥ 1`, yet
`_dutch_calc 10` returns stakes `(5, 5)` with `profit_each = -5/2`, not the
no-bet result (zero stakes, zero profit) the claim requires. -/
theorem dutch_calc_infeasible_counterexample :
    dutch_calc 10 (3/2) (3/2)
        = { stake1 := 5, stake2 := 5, profit_each := -5/2 } ∧
    (1:ℚ) / (3/2) + 1 / (3/2) ≥ 1 ∧ (5:ℚ) ≠ 0 := by
  refine ⟨?_, by norm_num, by norm_num⟩
  rw [dutch_calc_pos 10 (3/2) (3/2) (by norm_num)]
  norm_num

/-- C2 amended: `_dutch_calc` does not fail closed on an infeasible market.
For positive prices with `1/o1 + 1/o2 ≥ 1` and a positive total stake it
still returns a positive `stake1` with `stake1 + stake2 = total_stake`; the
infeasibility only shows up as `profit_each ≤ 0`. (The zero-stake branch is
taken only when `1/o1 + 1/o2 ≤ 0`, impossible for positive prices; and
`_compute_total_stake_for_recovery` likewise returns the base stake, not
zero, on such prices.) -/
theorem dutch_calc_no_fail_closed (o1 o2 total_stake : ℚ)
    (h1 : 0 < o1) (h2 : 0 < o2) (hinf : 1 ≤ 1 / o1 + 1 / o2)
    (hT : 0 < total_stake) :
    0 < (dutch_calc total_stake o1 o2).stake1 ∧
    (dutch_calc total_stake o1 o2).stake1 + (dutch_calc total_stake o1 o2).stake2
        = total_stake ∧
    (dutch_calc total_stake o1 o2).profit_each ≤ 0 := by
  have hs : (0:ℚ) < 1 / o1 + 1 / o2 := by positivity
  rw [dutch_calc_pos total_stake o1 o2 hs]
  refine ⟨by positivity, by ring, ?_⟩
  simp only
  have : total_stake / (1 / o1 + 1 / o2) ≤ total_stake / 1 := by
    apply div_le_div_of_nonneg_left (le_of_lt hT) one_pos hinf
  simp only [div_one] at this
  linarith

/-- Witness for the amended C2 at `total_stake = 10`, `o1 = o2 = 3/2`. -/
theorem dutch_calc_no_fail_closed_witness :
    (0:ℚ) < 3/2 ∧ (1:ℚ) ≤ 1 / (3/2) + 1 / (3/2) ∧ (0:ℚ) < 10 ∧
    (0 < (dutch_calc 10 (3/2) (3/2)).stake1 ∧
     (dutch_calc 10 (3/2) (3/2)).stake1 + (dutch_calc 10 (3/2) (3/2)).stake2 = 10 ∧
     (dutch_calc 10 (3/2) (3/2)).profit_each ≤ 0) :=
  ⟨by norm_num, by norm_num, by norm_num,
   dutch_calc_no_fail_closed (3/2) (3/2) 10 (by norm_num) (by norm_num)
     (by norm_num) (by norm_num)⟩

/-- C10: the shorter-priced favourite gets the larger stake. For
`total_stake > 0` and `1 < o1 ≤ o2`, `_dutch_calc` returns non-negative
stakes with `stake1 ≥ stake2`, split proportionally to the implied
probabilities: `stake1 * o1 = stake2 * o2`. -/
theorem dutch_calc_favourite_larger_stake (o1 o2 total_stake : ℚ)
    (h1 : 1 < o1) (h2 : 1 < o2) (h12 : o1 ≤ o2) (hT : 0 < total_stake) :
    (dutch_calc total_stake o1 o2).stake2 ≤ (dutch_calc total_stake o1 o2).stake1 ∧
    0 ≤ (dutch_calc total_stake o1 o2).stake1 ∧
    0 ≤ (dutch_calc total_stake o1 o2).stake2 ∧
    (dutch_calc total_stake o1 o2).stake1 * o1
        = (dutch_calc total_stake o1 o2).stake2 * o2 := by
  have h1' : (0:ℚ) < o1 := by linarith
  have h2' : (0:ℚ) < o2 := by linarith
  have hs : (0:ℚ) < 1 / o1 + 1 / o2 := by positivity
  rw [dutch_calc_pos total_stake o1 o2 hs]
  simp only
  rw [dutch_stake2_eq total_stake o1 o2 h1' h2']
  have hinv : 1 / o2 ≤ 1 / o1 := one_div_le_one_div_of_le h1' h12
  refine ⟨?_, by positivity, by positivity, ?_⟩
  · gcongr
  · field_simp
    ring

/-- Witness for C10 at `total_stake = 20`, `o1 = 2`, `o2 = 4`. -/
theorem dutch_calc_favourite_larger_stake_witness :
    (1:ℚ) < 2 ∧ (2:ℚ) ≤ 4 ∧ (0:ℚ) < 20 ∧
    ((dutch_calc 20 2 4).stake2 ≤ (dutch_calc 20 2 4).stake1 ∧
     0 ≤ (dutch_calc 20 2 4).stake1 ∧
     0 ≤ (dutch_calc 20 2 4).stake2 ∧
     (dutch_calc 20 2 4).stake1 * 2 = (dutch_calc 20 2 4).stake2 * 4) :=
  ⟨by norm_num, by norm_num, by norm_num,
   dutch_calc_favourite_larger_stake 2 4 20 (by norm_num) (by norm_num)
     (by norm_num) (by norm_num)⟩

/-! ## Stake sizing: bank cap and recovery sizing -/

/-- `profit_each` is linear in the total stake, in both branches of
`_dutch_calc`. -/
theorem dutch_profit_linear (c total_stake o1 o2 : ℚ) :
    (dutch_calc (c * total_stake) o1 o2).profit_each
      = c * (dutch_calc total_stake o1 o2).profit_each := by
  rw [dutch_calc_def, dutch_calc_def]
  split
  · simp only
    ring
  · simp only
    ring

/-- Scaling form of linearity: for a nonzero reference stake `u`, the profit
at any stake `t` is the profit at `u` scaled by `t / u`. -/
theorem dutch_profit_scale (t u o1 o2 : ℚ) (hu : u ≠ 0) :
    (dutch_calc t o1 o2).profit_each
      = (dutch_calc u o1 o2).profit_each * (t / u) := by
  have ht : t = t / u * u := (div_mul_cancel₀ t hu).symm
  calc (dutch_calc t o1 o2).profit_each
      = (dutch_calc (t / u * u) o1 o2).profit_each := by rw [← ht]
    _ = t / u * (dutch_calc u o1 o2).profit_each := dutch_profit_linear _ u o1 o2
    _ = (dutch_calc u o1 o2).profit_each * (t / u) := by ring

/-- `uncapped_total_for_recovery` written as a single expression. -/
theorem uncapped_total_def (s : StrategyState) (o1 o2 : ℚ) :
    uncapped_total_for_recovery s o1 o2 =
      if s.bank ≤ 0 then 0
      else
        max (s.bank * (s.stake_percent / 100))
          (if 0 < max 0 s.recovery_target ∧
              0 < (if 0 < 1 / o1 + 1 / o2 then 1 / (1 / o1 + 1 / o2) - 1 else 0)
           then max 0 s.recovery_target
                  / (if 0 < 1 / o1 + 1 / o2 then 1 / (1 / o1 + 1 / o2) - 1 else 0)
           else 0) := rfl

/-- `_compute_total_stake_for_recovery` is the uncapped total, capped by the
safety cap (when positive) and by the bank. -/
theorem compute_total_eq (s : StrategyState) (o1 o2 : ℚ) :
    compute_total_stake_for_recovery s o1 o2 =
      if s.bank ≤ 0 then 0
      else
        min (if 0 < s.bank * (s.max_recovery_stake_percent / 100)
             then min (uncapped_total_for_recovery s o1 o2)
                      (s.bank * (s.max_recovery_stake_percent / 100))
             else uncapped_total_for_recovery s o1 o2)
            s.bank := by
  by_cases hb : s.bank ≤ 0
  · simp only [compute_total_stake_for_recovery, uncapped_total_for_recovery,
      if_pos hb]
  · simp only [compute_total_stake_for_recovery, uncapped_total_for_recovery,
      if_neg hb]

/-- C3: Bank-safety cap. For a non-negative bank, the total stake returned by
`_compute_total_stake_for_recovery` never exceeds the bank; when the
`max_recovery_stake_percent` cap is positive it never exceeds
`bank * max_recovery_stake_percent / 100`; and the projected profit of the
capped stake is the uncapped profit scaled by the cap ratio
`capped / uncapped`. -/
theorem compute_total_bank_cap (s : StrategyState) (o1 o2 : ℚ)
    (hb : 0 ≤ s.bank) :
    compute_total_stake_for_recovery s o1 o2 ≤ s.bank ∧
    (0 < s.bank * (s.max_recovery_stake_percent / 100) →
      compute_total_stake_for_recovery s o1 o2
        ≤ s.bank * (s.max_recovery_stake_percent / 100)) ∧
    (uncapped_total_for_recovery s o1 o2 ≠ 0 →
      (dutch_calc (compute_total_stake_for_recovery s o1 o2) o1 o2).profit_each
        = (dutch_calc (uncapped_total_for_recovery s o1 o2) o1 o2).profit_each
          * (compute_total_stake_for_recovery s o1 o2
              / uncapped_total_for_recovery s o1 o2)) := by
  refine ⟨?_, ?_, fun hu => dutch_profit_scale _ _ o1 o2 hu⟩
  · rw [compute_total_eq]
    split
    · exact hb
    · exact min_le_right _ _
  · intro hcap
    have hbpos : ¬ s.bank ≤ 0 := by
      intro h
      rw [le_antisymm h hb, zero_mul] at hcap
      exact lt_irrefl 0 hcap
    rw [compute_total_eq, if_neg hbpos, if_pos hcap]
    exact le_trans (min_le_left _ _) (min_le_right _ _)

/-- Witness for C3 at the default state (bank 100, stake 5%, cap 30%) and
prices `2, 4`. -/
theorem compute_total_bank_cap_witness :
    (0:ℚ) ≤ ({} : StrategyState).bank ∧
    (compute_total_stake_for_recovery {} 2 4 ≤ ({} : StrategyState).bank ∧
     (0 < ({} : StrategyState).bank
          * (({} : StrategyState).max_recovery_stake_percent / 100) →
       compute_total_stake_for_recovery {} 2 4
         ≤ ({} : StrategyState).bank
             * (({} : StrategyState).max_recovery_stake_percent / 100)) ∧
     (uncapped_total_for_recovery {} 2 4 ≠ 0 →
       (dutch_calc (compute_total_stake_for_recovery {} 2 4) 2 4).profit_each
         = (dutch_calc (uncapped_total_for_recovery {} 2 4) 2 4).profit_each
           * (compute_total_stake_for_recovery {} 2 4
               / uncapped_total_for_recovery {} 2 4))) :=
  ⟨by norm_num, compute_total_bank_cap {} 2 4 (by norm_num)⟩

/-- The state of the spec's loss-then-win scenario: defaults (bank 100,
stake 5%, cap 30%) after a recorded loss of 10, so `recovery_target = 10`. -/
def lossCarryState : StrategyState := { recovery_target := 10 }

/-- C7 counterexample: in the spec's scenario (bank 100, base target 5,
loss carry 10) the code sizes the next stake for a desired profit of
`recovery_target = 10`, not `5 + 10 = 15`: the computed stake is 30 and its
projected profit is 10. There is no `targetProfitPerWin` term in the code. -/
theorem recovery_sizing_counterexample :
    lossCarryState.recovery_target = 10 ∧
    compute_total_stake_for_recovery lossCarryState 2 4 = 30 ∧
    (dutch_calc (compute_total_stake_for_recovery lossCarryState 2 4) 2 4).profit_each
      = 10 ∧
    (10 : ℚ) ≠ 5 + 10 := by
  have h30 : compute_total_stake_for_recovery lossCarryState 2 4 = 30 := by
    rw [compute_total_eq, uncapped_total_def]
    norm_num [lossCarryState, min_def, max_def]
  refine ⟨rfl, h30, ?_, by norm_num⟩
  rw [h30, dutch_calc_pos 30 2 4 (by norm_num)]
  norm_num

/-- C7 amended: the desired profit used to size the stake is
`max 0 recovery_target` alone (no base per-win profit target exists in the
code; the base component is a stake floor `bank * stake_percent / 100`).
For a feasible market the uncapped stake's projected profit is exactly
`max (base * denom) recovery_target`, hence at least the loss carry. -/
theorem recovery_sizing_amended (s : StrategyState) (o1 o2 : ℚ)
    (hb : 0 < s.bank) (hr : 0 < s.recovery_target)
    (hs : 0 < 1 / o1 + 1 / o2) (hlt : 1 / o1 + 1 / o2 < 1) :
    s.recovery_target
        ≤ (dutch_calc (uncapped_total_for_recovery s o1 o2) o1 o2).profit_each ∧
    (dutch_calc (uncapped_total_for_recovery s o1 o2) o1 o2).profit_each
      = max (s.bank * (s.stake_percent / 100) * (1 / (1 / o1 + 1 / o2) - 1))
            s.recovery_target := by
  have hdenom : 0 < 1 / (1 / o1 + 1 / o2) - 1 := by
    have := one_lt_one_div hs hlt
    linarith
  have hmax : max 0 s.recovery_target = s.recovery_target := max_eq_right hr.le
  have huncap : uncapped_total_for_recovery s o1 o2 =
      max (s.bank * (s.stake_percent / 100))
        (s.recovery_target / (1 / (1 / o1 + 1 / o2) - 1)) := by
    rw [uncapped_total_def, if_neg (not_le.mpr hb), if_pos hs, hmax,
      if_pos ⟨hr, hdenom⟩]
  have hprofit : ∀ t : ℚ, (dutch_calc t o1 o2).profit_each
      = t * (1 / (1 / o1 + 1 / o2) - 1) := by
    intro t
    rw [dutch_calc_pos t o1 o2 hs]
    simp only
    ring
  refine ⟨?_, ?_⟩
  · rw [hprofit, huncap]
    calc s.recovery_target
        = s.recovery_target / (1 / (1 / o1 + 1 / o2) - 1)
            * (1 / (1 / o1 + 1 / o2) - 1) := by
          rw [div_mul_cancel₀ _ (ne_of_gt hdenom)]
      _ ≤ max (s.bank * (s.stake_percent / 100))
            (s.recovery_target / (1 / (1 / o1 + 1 / o2) - 1))
            * (1 / (1 / o1 + 1 / o2) - 1) := by
          apply mul_le_mul_of_nonneg_right (le_max_right _ _) hdenom.le
  · rw [hprofit, huncap, max_mul_of_nonneg _ _ hdenom.le,
      div_mul_cancel₀ _ (ne_of_gt hdenom)]

/-- Witness for the amended C7 in the spec scenario (`lossCarryState`,
prices `2, 4`): the uncapped stake's projected profit is
`max (5 * (1/3)) 10 = 10 = recovery_target`. -/
theorem recovery_sizing_amended_witness :
    (0:ℚ) < lossCarryState.bank ∧ (0:ℚ) < lossCarryState.recovery_target ∧
    (0:ℚ) < 1 / 2 + 1 / 4 ∧ (1:ℚ) / 2 + 1 / 4 < 1 ∧
    (lossCarryState.recovery_target
        ≤ (dutch_calc (uncapped_total_for_recovery lossCarryState 2 4) 2 4).profit_each ∧
     (dutch_calc (uncapped_total_for_recovery lossCarryState 2 4) 2 4).profit_each
       = max (lossCarryState.bank * (lossCarryState.stake_percent / 100)
                * (1 / (1 / 2 + 1 / 4) - 1))
             lossCarryState.recovery_target) :=
  ⟨by norm_num [lossCarryState], by norm_num [lossCarryState], by norm_num,
   by norm_num,
   recovery_sizing_amended lossCarryState 2 4 (by norm_num [lossCarryState])
     (by norm_num [lossCarryState]) (by norm_num) (by norm_num)⟩

/-! ## Recording results -/

/-- `_record_auto_result` on a loss: the bank drops by the recorded stake,
the recovery target grows by it, one history entry is appended, and the
bot advances (never stops). -/
theorem record_lost_eq (ts mn mid : String) (s : StrategyState) :
    record_auto_result ts s mn mid false =
      some (advance_market
        { s with
            bank := s.bank + -s.last_total_stake
            recovery_target := s.recovery_target + s.last_total_stake
            history := s.history ++
              [{ ts_utc := ts
                 race_name := mn
                 market_id := mid
                 favs := favsString (s.last_favourites.getD [])
                 total_stake := s.last_total_stake
                 pl := -s.last_total_stake
                 won := false
                 recovery_target_after := s.recovery_target + s.last_total_stake
                 bank_after := s.bank + -s.last_total_stake }] }) := rfl

/-- `_record_auto_result` on a win with `stop_after_win` set: profit added,
recovery target reset, one history entry appended, bot stopped and
advanced. -/
theorem record_won_stop_eq (ts mn mid : String) (s : StrategyState)
    (f1 f2 : Fav) (rest : List Fav)
    (hf : s.last_favourites.getD [] = f1 :: f2 :: rest)
    (hstop : s.stop_after_win = true) :
    record_auto_result ts s mn mid true =
      some (advance_market
        { s with
            bank := s.bank + (dutch_calc s.last_total_stake f1.back f2.back).profit_each
            recovery_target := 0
            history := s.history ++
              [{ ts_utc := ts
                 race_name := mn
                 market_id := mid
                 favs := favsString (s.last_favourites.getD [])
                 total_stake := s.last_total_stake
                 pl := (dutch_calc s.last_total_stake f1.back f2.back).profit_each
                 won := true
                 recovery_target_after := 0
                 bank_after := s.bank
                   + (dutch_calc s.last_total_stake f1.back f2.back).profit_each }]
            running := false }) := by
  simp only [record_auto_result, hf, hstop]
  rfl

/-- `_record_auto_result` on a win with `stop_after_win` cleared: profit
added, recovery target reset, one history entry appended, bot advanced but
left running. -/
theorem record_won_nostop_eq (ts mn mid : String) (s : StrategyState)
    (f1 f2 : Fav) (rest : List Fav)
    (hf : s.last_favourites.getD [] = f1 :: f2 :: rest)
    (hstop : s.stop_after_win = false) :
    record_auto_result ts s mn mid true =
      some (advance_market
        { s with
            bank := s.bank + (dutch_calc s.last_total_stake f1.back f2.back).profit_each
            recovery_target := 0
            history := s.history ++
              [{ ts_utc := ts
                 race_name := mn
                 market_id := mid
                 favs := favsString (s.last_favourites.getD [])
                 total_stake := s.last_total_stake
                 pl := (dutch_calc s.last_total_stake f1.back f2.back).profit_each
                 won := true
                 recovery_target_after := 0
                 bank_after := s.bank
                   + (dutch_calc s.last_total_stake f1.back f2.back).profit_each }] }) := by
  simp only [record_auto_result, hf, hstop]
  rfl

/-- `_record_auto_result` on a win raises (modelled `none`) iff fewer than
two favourites are stored. -/
theorem record_won_none_iff (ts mn mid : String) (s : StrategyState) :
    record_auto_result ts s mn mid true = none ↔
      (s.last_favourites.getD []).length < 2 := by
  cases hf : s.last_favourites.getD [] with
  | nil => simp [record_auto_result, hf]
  | cons f1 tl =>
    cases tl with
    | nil => simp [record_auto_result, hf]
    | cons f2 rest =>
      constructor
      · intro h
        cases hstop : s.stop_after_win with
        | false =>
          rw [record_won_nostop_eq ts mn mid s f1 f2 rest hf hstop] at h
          exact absurd h (by simp)
        | true =>
          rw [record_won_stop_eq ts mn mid s f1 f2 rest hf hstop] at h
          exact absurd h (by simp)
      · intro h
        simp at h
        omega

/-- A running state after a large recorded stake: defaults (bank 100) with
`running = true` and a pending stake of 90. -/
def bigLossState : StrategyState := { running := true, last_total_stake := 90 }

/-- C4 counterexample: there is no daily-loss threshold in the code. In
`bigLossState` a loss of 90 (90% of the bank, at or above any plausible
`maxDailyLoss`) is recorded, the loss carry jumps from 0 to 90, yet the
terminal flag is not set: `running` stays `true` and the bot advances to the
next race. -/
theorem loss_threshold_counterexample :
    bigLossState.running = true ∧ bigLossState.recovery_target = 0 ∧
    ((record_auto_result "t" bigLossState "m" "mid" false).map
        (fun t => (t.running, t.recovery_target, t.current_index)))
      = some (true, 90, 1) := by
  refine ⟨rfl, rfl, ?_⟩
  rw [record_lost_eq]
  norm_num [advance_market, bigLossState]

/-- C4 amended: recording a loss never sets the terminal flag, whatever the
accumulated losses: `running` is unchanged, the loss carry grows by the
recorded stake, the bank drops by it, and the engine advances to the next
race. (The code has no `maxDailyLoss`; the day only ends on a win with
`stop_after_win`, on exhausting the market list, or when the computed stake
is non-positive.) -/
theorem record_lost_never_stops (ts mn mid : String) (s : StrategyState) :
    ∃ s', record_auto_result ts s mn mid false = some s' ∧
      s'.running = s.running ∧
      s'.current_index = s.current_index + 1 ∧
      s'.recovery_target = s.recovery_target + s.last_total_stake ∧
      s'.bank = s.bank - s.last_total_stake := by
  exact ⟨_, record_lost_eq ts mn mid s, rfl, rfl, rfl,
    (sub_eq_add_neg s.bank s.last_total_stake).symm⟩

/-- A running state holding a won bet of 20 on favourites at 2 and 4, with
`stop_after_win` cleared. -/
def winNoStopState : StrategyState :=
  { running := true
    stop_after_win := false
    last_total_stake := 20
    last_favourites := some [⟨"A", 2, none⟩, ⟨"B", 4, none⟩] }

/-- C5 counterexample: recording a win does not set the terminal flag
"regardless of the prior state" — with `stop_after_win = false` the bot
keeps running after a won race. -/
theorem win_terminal_counterexample :
    winNoStopState.running = true ∧ winNoStopState.stop_after_win = false ∧
    ((record_auto_result "t" winNoStopState "m" "mid" true).map
        (fun t => t.running)) = some true := by
  refine ⟨rfl, rfl, ?_⟩
  rw [record_won_nostop_eq "t" "m" "mid" winNoStopState ⟨"A", 2, none⟩
    ⟨"B", 4, none⟩ [] rfl rfl]
  rfl

/-- C5 amended: after any successfully recorded win the loss carry
(`recovery_target`) is 0 and the win's dutching profit is added to the bank;
the terminal flag (`running = false`) is set when `stop_after_win` is set
(its default), not unconditionally. -/
theorem record_won_clears_recovery (ts mn mid : String) (s s' : StrategyState)
    (h : record_auto_result ts s mn mid true = some s') :
    s'.recovery_target = 0 ∧
    (s.stop_after_win = true → s'.running = false) ∧
    (∃ f1 f2 rest, s.last_favourites.getD [] = f1 :: f2 :: rest ∧
        s'.bank = s.bank
          + (dutch_calc s.last_total_stake f1.back f2.back).profit_each) := by
  cases hf : s.last_favourites.getD [] with
  | nil => simp [record_auto_result, hf] at h
  | cons f1 tl =>
    cases tl with
    | nil => simp [record_auto_result, hf] at h
    | cons f2 rest =>
      cases hstop : s.stop_after_win with
      | true =>
        rw [record_won_stop_eq ts mn mid s f1 f2 rest hf hstop] at h
        obtain rfl := Option.some.inj h
        exact ⟨rfl, fun _ => rfl, f1, f2, rest, rfl, rfl⟩
      | false =>
        rw [record_won_nostop_eq ts mn mid s f1 f2 rest hf hstop] at h
        obtain rfl := Option.some.inj h
        exact ⟨rfl, fun hc => absurd hc (by simp), f1, f2, rest, rfl, rfl⟩

/-- A running state holding a won bet of 20 on favourites at 2 and 4, with
the default `stop_after_win = true`. -/
def winStopState : StrategyState :=
  { running := true
    last_total_stake := 20
    last_favourites := some [⟨"A", 2, none⟩, ⟨"B", 4, none⟩] }

/-- Witness for the amended C5 on `winStopState`. -/
theorem record_won_clears_recovery_witness :
    record_auto_result "t" winStopState "m" "mid" true
        = some ((record_auto_result "t" winStopState "m" "mid" true).getD {}) ∧
    (((record_auto_result "t" winStopState "m" "mid" true).getD {}).recovery_target
        = 0 ∧
     (winStopState.stop_after_win = true →
        ((record_auto_result "t" winStopState "m" "mid" true).getD {}).running
          = false) ∧
     (∃ f1 f2 rest, winStopState.last_favourites.getD [] = f1 :: f2 :: rest ∧
        ((record_auto_result "t" winStopState "m" "mid" true).getD {}).bank
          = winStopState.bank
            + (dutch_calc winStopState.last_total_stake f1.back
                f2.back).profit_each)) :=
  ⟨by rw [record_won_stop_eq "t" "m" "mid" winStopState ⟨"A", 2, none⟩
      ⟨"B", 4, none⟩ [] rfl rfl, Option.getD_some],
   record_won_clears_recovery "t" "m" "mid" winStopState _
     (by rw [record_won_stop_eq "t" "m" "mid" winStopState ⟨"A", 2, none⟩
         ⟨"B", 4, none⟩ [] rfl rfl, Option.getD_some])⟩

/-- C6: Idempotent terminal state. Recording an outcome through the
settlement path while the terminal state holds (`running = false`) is a
no-op: the state — bank, running P/L and history included — is returned
unchanged, and no exception is raised (the result is `some`). -/
theorem settle_terminal_is_noop (ts mn mid : String) (s : StrategyState)
    (h : s.running = false) :
    settle_and_record ts s mn mid true = some s ∧
    settle_and_record ts s mn mid false = some s := by
  constructor <;> simp [settle_and_record, h]

/-- Witness for C6 at the default state, which has `running = false`. -/
theorem settle_terminal_is_noop_witness :
    ({} : StrategyState).running = false ∧
    (settle_and_record "t" {} "m" "mid" true = some {} ∧
     settle_and_record "t" {} "m" "mid" false = some {}) :=
  ⟨rfl, settle_terminal_is_noop "t" "m" "mid" {} rfl⟩

/-- C8: History is append-only. `_advance_market` leaves the history
unchanged; a successful `_record_auto_result` appends exactly one entry at
the end of the existing history; and the settlement path either leaves the
history unchanged (guard taken) or appends exactly one entry. -/
theorem history_append_only (ts mn mid : String) (won : Bool)
    (s s' : StrategyState)
    (h : record_auto_result ts s mn mid won = some s') :
    (advance_market s).history = s.history ∧
    (∃ e, s'.history = s.history ++ [e]) ∧
    (∀ s'', settle_and_record ts s mn mid won = some s'' →
        s''.history = s.history ∨ ∃ e, s''.history = s.history ++ [e]) := by
  have happ : ∃ e, s'.history = s.history ++ [e] := by
    cases won with
    | false =>
      rw [record_lost_eq ts mn mid s] at h
      obtain rfl := Option.some.inj h
      exact ⟨_, rfl⟩
    | true =>
      cases hf : s.last_favourites.getD [] with
      | nil => simp [record_auto_result, hf] at h
      | cons f1 tl =>
        cases tl with
        | nil => simp [record_auto_result, hf] at h
        | cons f2 rest =>
          cases hstop : s.stop_after_win with
          | true =>
            rw [record_won_stop_eq ts mn mid s f1 f2 rest hf hstop] at h
            obtain rfl := Option.some.inj h
            exact ⟨_, rfl⟩
          | false =>
            rw [record_won_nostop_eq ts mn mid s f1 f2 rest hf hstop] at h
            obtain rfl := Option.some.inj h
            exact ⟨_, rfl⟩
  refine ⟨rfl, happ, fun s'' hs => ?_⟩
  rw [settle_and_record] at hs
  split at hs
  · obtain rfl := Option.some.inj hs
    exact Or.inl rfl
  · rw [h] at hs
    obtain rfl := Option.some.inj hs
    exact Or.inr happ

/-- Witness for C8: a loss recorded at the default state. -/
theorem history_append_only_witness :
    record_auto_result "t" {} "m" "mid" false
        = some ((record_auto_result "t" {} "m" "mid" false).getD {}) ∧
    ((advance_market {}).history = ({} : StrategyState).history ∧
     (∃ e, ((record_auto_result "t" {} "m" "mid" false).getD {}).history
            = ({} : StrategyState).history ++ [e]) ∧
     (∀ s'', settle_and_record "t" {} "m" "mid" false = some s'' →
        s''.history = ({} : StrategyState).history ∨
          ∃ e, s''.history = ({} : StrategyState).history ++ [e])) :=
  ⟨by rw [record_lost_eq, Option.getD_some],
   history_append_only "t" "m" "mid" false {} _
     (by rw [record_lost_eq, Option.getD_some])⟩

/-! ## Bank non-negativity through the run loop -/

/-- With a non-negative bank, `_compute_total_stake_for_recovery` never
returns more than the bank. -/
theorem compute_total_le_bank (s : StrategyState) (o1 o2 : ℚ)
    (hb : 0 ≤ s.bank) :
    compute_total_stake_for_recovery s o1 o2 ≤ s.bank := by
  rw [compute_total_eq]
  split
  · exact hb
  · exact min_le_right _ _

/-- `profit_each` is never below the loss of the whole stake, in either
branch of `_dutch_calc`. -/
theorem dutch_profit_ge_neg (t o1 o2 : ℚ) (ht : 0 ≤ t) :
    -t ≤ (dutch_calc t o1 o2).profit_each := by
  rw [dutch_calc_def]
  split
  · exact le_rfl
  · next hns =>
    have hs : (0:ℚ) < 1 / o1 + 1 / o2 := lt_of_not_le hns
    have hd : 0 ≤ t / (1 / o1 + 1 / o2) := div_nonneg ht hs.le
    simp only
    linarith

/-- The bank after a successfully recorded win: the stored stake's dutching
profit is added. -/
theorem record_won_bank_eq (ts mn mid : String) (s s' : StrategyState)
    (f1 f2 : Fav) (rest : List Fav)
    (hf : s.last_favourites.getD [] = f1 :: f2 :: rest)
    (h : record_auto_result ts s mn mid true = some s') :
    s'.bank = s.bank
      + (dutch_calc s.last_total_stake f1.back f2.back).profit_each := by
  cases hstop : s.stop_after_win with
  | true =>
    rw [record_won_stop_eq ts mn mid s f1 f2 rest hf hstop] at h
    obtain rfl := Option.some.inj h
    rfl
  | false =>
    rw [record_won_nostop_eq ts mn mid s f1 f2 rest hf hstop] at h
    obtain rfl := Option.some.inj h
    rfl

/-- One run-loop iteration keeps the bank non-negative. -/
theorem run_loop_step_bank (e : RaceEvent) (s s' : StrategyState)
    (hb : 0 ≤ s.bank) (h : run_loop_step e s = some s') : 0 ≤ s'.bank := by
  have hle := compute_total_le_bank s e.f1.back e.f2.back hb
  simp only [run_loop_step] at h
  by_cases ht : compute_total_stake_for_recovery s e.f1.back e.f2.back ≤ 0
  · rw [if_pos ht] at h
    obtain rfl := Option.some.inj h
    exact hb
  · rw [if_neg ht] at h
    have htpos : 0 < compute_total_stake_for_recovery s e.f1.back e.f2.back :=
      lt_of_not_le ht
    cases hw : e.won with
    | false =>
      rw [hw, record_lost_eq] at h
      obtain rfl := Option.some.inj h
      simp only [advance_market]
      linarith
    | true =>
      rw [hw] at h
      have hbank : s'.bank = s.bank
          + (dutch_calc (compute_total_stake_for_recovery s e.f1.back e.f2.back)
              e.f1.back e.f2.back).profit_each :=
        record_won_bank_eq e.ts e.market_name e.market_id
          { s with
              last_total_stake :=
                compute_total_stake_for_recovery s e.f1.back e.f2.back,
              last_favourites := some [e.f1, e.f2],
              last_bet_time_utc := some e.ts,
              current_market_id := some e.market_id }
          s' e.f1 e.f2 [] rfl h
      have hprof := dutch_profit_ge_neg
        (compute_total_stake_for_recovery s e.f1.back e.f2.back)
        e.f1.back e.f2.back htpos.le
      rw [hbank]
      linarith

/-- Any sequence of run-loop iterations keeps the bank non-negative. -/
theorem run_races_bank_nonneg (events : List RaceEvent) :
    ∀ s s' : StrategyState, 0 ≤ s.bank → run_races events s = some s' →
      0 ≤ s'.bank := by
  induction events with
  | nil =>
    intro s s' hb h
    simp only [run_races] at h
    obtain rfl := Option.some.inj h
    exact hb
  | cons e es ih =>
    intro s s' hb h
    simp only [run_races] at h
    cases hstep : run_loop_step e s with
    | none => rw [hstep] at h; exact absurd h (by simp)
    | some s1 =>
      rw [hstep] at h
      exact ih s1 s' (run_loop_step_bank e s s1 hb hstep) h

/-- C9: the bank never goes negative through the engine's own updates.
Starting from a non-negative bank, the stake computed for a race never
exceeds the bank at computation time, and after any sequence of run-loop
iterations (stake computation followed by a win or loss settlement) the
bank is still non-negative. -/
theorem bank_stays_nonneg (s : StrategyState) (o1 o2 : ℚ)
    (events : List RaceEvent) (s' : StrategyState)
    (hb : 0 ≤ s.bank) (h : run_races events s = some s') :
    compute_total_stake_for_recovery s o1 o2 ≤ s.bank ∧ 0 ≤ s'.bank :=
  ⟨compute_total_le_bank s o1 o2 hb, run_races_bank_nonneg events s s' hb h⟩

/-- Witness for C9 at the default state and prices `2, 4`. -/
theorem bank_stays_nonneg_witness :
    (0:ℚ) ≤ ({} : StrategyState).bank ∧ run_races [] {} = some {} ∧
    (compute_total_stake_for_recovery {} 2 4 ≤ ({} : StrategyState).bank ∧
     (0:ℚ) ≤ ({} : StrategyState).bank) :=
  ⟨by norm_num, rfl, bank_stays_nonneg {} 2 4 [] {} (by norm_num) rfl⟩

end BetfairFavsBot
